import Mathlib

set_option maxRecDepth 10000

/-!
Shallow embedding of the DNS message decoder of packet-rs
(src/pnet/dns/src/{helpers,labels,characters,record,packet}.rs).

Conventions of the embedding:
* Byte buffers are `List Nat` (each element intended `< 256`); decoded Rust
  `String`s are kept as their UTF-8 byte lists.
* Every embedded fallible function returns `RRes α`:
  `.ok` / `.err` mirror Rust `Result`, `.panic` marks a Rust panic
  (out-of-bounds slice/index, or arithmetic underflow under the
  overflow-checked semantics), `.fuelOut` means an iteration bound given to
  an embedded loop was exhausted (the Rust loop is still running).
* Loops (`parse_labels`, `get_character_strings`, the per-section record
  loops) take explicit fuel; for `get_character_strings` the cursor advances
  by at least one byte per iteration, so `raw.length + 1` fuel is always
  enough and the wrapper supplies it.
-/

namespace PacketRs

/-- error taxonomy of error.rs (the `Utf8Error` payloads are dropped). -/
inductive DnsError where
  | dataLength
  | recordLength
  | packetLength
  | charactersLength
  | charactersUtf8
  | labelLength
  | labelReference
  | labelUtf8
deriving DecidableEq

/-- result of running embedded Rust code: `Ok`, `Err`, a panic, or fuel
exhaustion of an embedded loop. -/
inductive RRes (α : Type) where
  | ok : α → RRes α
  | err : DnsError → RRes α
  | panic : RRes α
  | fuelOut : RRes α
deriving DecidableEq

def RRes.bind {α β : Type} : RRes α → (α → RRes β) → RRes β
  | .ok a, f => f a
  | .err e, _ => .err e
  | .panic, _ => .panic
  | .fuelOut, _ => .fuelOut

/-- Rust slice expression `&raw[a..b]`: `none` models the bounds panic. -/
def rustSlice (raw : List Nat) (a b : Nat) : Option (List Nat) :=
  if a ≤ b ∧ b ≤ raw.length then some ((raw.drop a).take (b - a)) else none

/-- Rust index expression `raw[i]`: `.panic` models the bounds panic. -/
def byteAt (raw : List Nat) (i : Nat) : RRes Nat :=
  if i < raw.length then .ok (raw.getD i 0) else .panic

/-- value of a big-endian byte list (helpers.rs `from_be_bytes`). -/
def beVal (bytes : List Nat) : Nat :=
  bytes.foldl (fun acc b => 256 * acc + b) 0

/-- helpers.rs `read_be_u16`/`u32`/`u128` applied to `&raw[a..b]`:
the callers always pass a range of exactly the field width. -/
def read_be (raw : List Nat) (a b : Nat) : RRes Nat :=
  match rustSlice raw a b with
  | some bytes => .ok (beVal bytes)
  | none => .panic

/-- continuation byte 0x80..0xBF. -/
def isCont (c : Nat) : Bool := 128 ≤ c && c ≤ 191

/-- UTF-8 validity of a byte list, as checked by Rust `str::from_utf8`
(RFC 3629 ranges, surrogates and overlong forms rejected). -/
def isValidUtf8 : List Nat → Bool
  | [] => true
  | b :: rest =>
    if b < 128 then isValidUtf8 rest
    else if 194 ≤ b ∧ b ≤ 223 then
      match rest with
      | c1 :: rest2 => isCont c1 && isValidUtf8 rest2
      | [] => false
    else if b = 224 then
      match rest with
      | c1 :: c2 :: rest2 => (160 ≤ c1 && c1 ≤ 191) && isCont c2 && isValidUtf8 rest2
      | _ => false
    else if (225 ≤ b ∧ b ≤ 236) ∨ b = 238 ∨ b = 239 then
      match rest with
      | c1 :: c2 :: rest2 => isCont c1 && isCont c2 && isValidUtf8 rest2
      | _ => false
    else if b = 237 then
      match rest with
      | c1 :: c2 :: rest2 => (128 ≤ c1 && c1 ≤ 159) && isCont c2 && isValidUtf8 rest2
      | _ => false
    else if b = 240 then
      match rest with
      | c1 :: c2 :: c3 :: rest2 =>
        (144 ≤ c1 && c1 ≤ 191) && isCont c2 && isCont c3 && isValidUtf8 rest2
      | _ => false
    else if 241 ≤ b ∧ b ≤ 243 then
      match rest with
      | c1 :: c2 :: c3 :: rest2 =>
        isCont c1 && isCont c2 && isCont c3 && isValidUtf8 rest2
      | _ => false
    else if b = 244 then
      match rest with
      | c1 :: c2 :: c3 :: rest2 =>
        (128 ≤ c1 && c1 ≤ 143) && isCont c2 && isCont c3 && isValidUtf8 rest2
      | _ => false
    else false

/-- loop body of labels.rs `parse_labels`; state is the cursor `i`, the
`is_reference` flag, the accumulated `label_indexes` and the pending
`next_index`.  `raw[i + 1]` in the reference branch is read without a bounds
check in the source, hence the `.panic` arm. -/
def parse_labels_go (raw : List Nat) : Nat → Nat → Bool → List Nat → Nat →
    RRes (List Nat × Nat)
  | 0, _, _, _, _ => .fuelOut
  | fuel + 1, i, isRef, idxs, next =>
    if i ≥ raw.length then .err .labelLength
    else
      let length := raw.getD i 0
      if length = 0 then
        if isRef then .ok (idxs, next) else .ok (idxs, i + 1)
      else if length &&& 192 ≠ 0 then
        let next2 := if isRef then next else i + 2
        if i + 1 < raw.length then
          let newI := ((length &&& 63) <<< 8) ||| raw.getD (i + 1) 0
          if newI ≥ i then .err .labelReference
          else parse_labels_go raw fuel newI true idxs next2
        else .panic
      else
        parse_labels_go raw fuel (i + length + 1) isRef (idxs ++ [i]) next

/-- labels.rs `parse_labels(raw, offset)`. -/
def parse_labels (fuel : Nat) (raw : List Nat) (offset : Nat) :
    RRes (List Nat × Nat) :=
  parse_labels_go raw fuel offset false [] 0

/-- labels.rs `get_name_from_labels`: per label index, read the length byte,
slice the label text, validate UTF-8, append the text and a dot. -/
def get_name_from_labels (raw : List Nat) : List Nat → RRes (List Nat)
  | [] => .ok []
  | i :: rest =>
    if i < raw.length then
      let length := raw.getD i 0
      match rustSlice raw (i + 1) (i + 1 + length) with
      | some part =>
        if isValidUtf8 part then
          (get_name_from_labels raw rest).bind fun tail =>
            .ok (part ++ [46] ++ tail)
        else .err .labelUtf8
      | none => .panic
    else .panic

/-- labels.rs `get_name`. -/
def get_name (fuel : Nat) (raw : List Nat) (offset : Nat) : RRes (List Nat) :=
  (parse_labels fuel raw offset).bind fun r => get_name_from_labels raw r.1

/-- loop body of characters.rs `get_character_strings`: note the source
checks `i + length > raw.len()` with the cursor still on the length byte and
only then advances `i` past it, so the slice `&raw[i..i + length]` taken
afterwards can run one byte past the end of the buffer. -/
def get_character_strings_go (raw : List Nat) : Nat → Nat →
    RRes (List (List Nat))
  | 0, _ => .fuelOut
  | fuel + 1, i =>
    if i < raw.length then
      let length := raw.getD i 0
      if i + length > raw.length then .err .charactersLength
      else
        match rustSlice raw (i + 1) (i + 1 + length) with
        | some chars =>
          if isValidUtf8 chars then
            (get_character_strings_go raw fuel (i + 1 + length)).bind fun rest =>
              .ok (chars :: rest)
          else .err .charactersUtf8
        | none => .panic
    else .ok []

/-- characters.rs `get_character_strings`; the cursor advances by at least
one byte per iteration, so `raw.length + 1` iterations always finish. -/
def get_character_strings (raw : List Nat) : RRes (List (List Nat)) :=
  get_character_strings_go raw (raw.length + 1) 0

/-- record.rs `Type` (enum of recognized RR types, open fallback). -/
inductive Typ where
  | a : Typ
  | ns : Typ
  | md : Typ
  | mf : Typ
  | cname : Typ
  | soa : Typ
  | mb : Typ
  | mg : Typ
  | mr : Typ
  | null : Typ
  | wks : Typ
  | ptr : Typ
  | hinfo : Typ
  | minfo : Typ
  | mx : Typ
  | txt : Typ
  | aaaa : Typ
  | srv : Typ
  | axfr : Typ
  | mailb : Typ
  | maila : Typ
  | all : Typ
  | unknown : Nat → Typ
deriving DecidableEq

/-- record.rs `impl From<u16> for Type`. -/
def Typ.fromNat (n : Nat) : Typ :=
  match n with
  | 1 => .a
  | 2 => .ns
  | 3 => .md
  | 4 => .mf
  | 5 => .cname
  | 6 => .soa
  | 7 => .mb
  | 8 => .mg
  | 9 => .mr
  | 10 => .null
  | 11 => .wks
  | 12 => .ptr
  | 13 => .hinfo
  | 14 => .minfo
  | 15 => .mx
  | 16 => .txt
  | 28 => .aaaa
  | 33 => .srv
  | 252 => .axfr
  | 253 => .mailb
  | 254 => .maila
  | 255 => .all
  | other => .unknown other

/-- record.rs `Class` (`In` is spelled `internet` here, `in` being reserved). -/
inductive Class where
  | internet : Class
  | cs : Class
  | ch : Class
  | hs : Class
  | unknown : Nat → Class
deriving DecidableEq

/-- record.rs `impl From<u16> for Class`. -/
def Class.fromNat (n : Nat) : Class :=
  match n with
  | 1 => .internet
  | 2 => .cs
  | 3 => .ch
  | 4 => .hs
  | other => .unknown other

/-- record.rs `Data`: decoded RDATA.  IPv4/IPv6 addresses are kept as the
big-endian integer value; names and raw payloads as byte lists. -/
inductive Data where
  | a : Nat → Data
  | ns : List Nat → Data
  | cname : List Nat → Data
  | soa : List Nat → List Nat → Nat → Nat → Nat → Nat → Nat → Data
  | ptr : List Nat → Data
  | mx : Nat → List Nat → Data
  | txt : List (List Nat) → Data
  | aaaa : Nat → Data
  | srv : Nat → Nat → Nat → List Nat → Data
  | unknown : List Nat → Data
  | invalid : List Nat → Data
deriving DecidableEq

/-- record.rs `Data::parse(raw, offset, length, typ, class)`. -/
def Data.parse (fuel : Nat) (raw : List Nat) (offset length : Nat)
    (typ : Typ) (cls : Class) : RRes Data :=
  let i := offset
  if i + length > raw.length then .err .dataLength
  else
    match cls with
    | .internet =>
      match typ with
      | .a =>
        if length ≠ 4 then .err .dataLength
        else (read_be raw i (i + 4)).bind fun v => .ok (.a v)
      | .ns => (get_name fuel raw i).bind fun nm => .ok (.ns nm)
      | .cname => (get_name fuel raw i).bind fun nm => .ok (.cname nm)
      | .soa =>
        if length < 22 then .err .dataLength
        else
          (parse_labels fuel raw i).bind fun m =>
          (parse_labels fuel raw m.2).bind fun r =>
          (get_name_from_labels raw m.1).bind fun mname =>
          (get_name_from_labels raw r.1).bind fun rname =>
          (read_be raw r.2 (r.2 + 4)).bind fun serial =>
          (read_be raw (r.2 + 4) (r.2 + 8)).bind fun refresh =>
          (read_be raw (r.2 + 8) (r.2 + 12)).bind fun retry =>
          (read_be raw (r.2 + 12) (r.2 + 16)).bind fun expire =>
          (read_be raw (r.2 + 16) (r.2 + 20)).bind fun minimum =>
          .ok (.soa mname rname serial refresh retry expire minimum)
      | .ptr => (get_name fuel raw i).bind fun nm => .ok (.ptr nm)
      | .mx =>
        if length < 3 then .err .dataLength
        else
          (read_be raw i (i + 2)).bind fun preference =>
          (get_name fuel raw (i + 2)).bind fun nm => .ok (.mx preference nm)
      | .txt =>
        match rustSlice raw i (i + length) with
        | some bytes => (get_character_strings bytes).bind fun ss => .ok (.txt ss)
        | none => .panic
      | .aaaa =>
        if length ≠ 16 then .err .dataLength
        else (read_be raw i (i + 16)).bind fun v => .ok (.aaaa v)
      | .srv =>
        if length < 7 then .err .dataLength
        else
          (read_be raw i (i + 2)).bind fun priority =>
          (read_be raw (i + 2) (i + 4)).bind fun weight =>
          (read_be raw (i + 4) (i + 6)).bind fun port =>
          (get_name fuel raw (i + 6)).bind fun target =>
          .ok (.srv priority weight port target)
      | _ =>
        match rustSlice raw i (i + length) with
        | some bytes => .ok (.unknown bytes)
        | none => .panic
    | _ =>
      match rustSlice raw i (i + length) with
      | some bytes => .ok (.unknown bytes)
      | none => .panic

/-- record.rs `Data::get`: a `parse` error is downgraded to `Invalid` over
the slice `&raw[offset..offset + min(length, raw.len())]` — that slice
itself is out of bounds whenever `offset + min(length, raw.len())` exceeds
`raw.len()`, hence the `.panic` arm. -/
def Data.get (fuel : Nat) (raw : List Nat) (offset length : Nat)
    (typ : Typ) (cls : Class) : RRes Data :=
  match Data.parse fuel raw offset length typ cls with
  | .ok d => .ok d
  | .err _ =>
    match rustSlice raw offset (offset + min length raw.length) with
    | some bytes => .ok (.invalid bytes)
    | none => .panic
  | .panic => .panic
  | .fuelOut => .fuelOut

/-- record.rs `DnsRecord` minus the buffer borrow: the start offset, the
label indexes and the index of the first fixed field after the name. -/
structure DnsRecord where
  offset : Nat
  labelIndexes : List Nat
  nextIndex : Nat
deriving DecidableEq

/-- record.rs `DnsRecord::parse`. -/
def DnsRecord.parse (fuel : Nat) (raw : List Nat) (offset : Nat) :
    RRes DnsRecord :=
  if offset > raw.length ∨ raw.length - offset < 5 then .err .recordLength
  else
    (parse_labels fuel raw offset).bind fun r =>
      .ok ⟨offset, r.1, r.2⟩

/-- record.rs `DnsRecord::get_labels_length`: `next_index - offset` is an
unchecked usize subtraction; underflow is a panic under the overflow-checked
semantics. -/
def DnsRecord.get_labels_length (rec : DnsRecord) : RRes Nat :=
  if rec.nextIndex < rec.offset then .panic
  else .ok (rec.nextIndex - rec.offset)

/-- record.rs `DnsRecord::get_name` (UTF-8 failure is replaced by the text
`<error>`). -/
def DnsRecord.get_name (raw : List Nat) (rec : DnsRecord) : RRes (List Nat) :=
  match get_name_from_labels raw rec.labelIndexes with
  | .ok nm => .ok nm
  | .err _ => .ok [60, 101, 114, 114, 111, 114, 62]
  | .panic => .panic
  | .fuelOut => .fuelOut

/-- record.rs `DnsRecord::get_type`: big-endian u16 at `next_index`. -/
def DnsRecord.get_type (raw : List Nat) (rec : DnsRecord) : RRes Typ :=
  (read_be raw rec.nextIndex (rec.nextIndex + 2)).bind fun v =>
    .ok (Typ.fromNat v)

/-- record.rs `DnsRecord::get_class`: big-endian u16 at `next_index + 2`. -/
def DnsRecord.get_class (raw : List Nat) (rec : DnsRecord) : RRes Class :=
  (read_be raw (rec.nextIndex + 2) (rec.nextIndex + 4)).bind fun v =>
    .ok (Class.fromNat v)

/-- record.rs `DnsRecord::get_ttl`: big-endian u32 at `next_index + 4`. -/
def DnsRecord.get_ttl (raw : List Nat) (rec : DnsRecord) : RRes Nat :=
  read_be raw (rec.nextIndex + 4) (rec.nextIndex + 8)

/-- record.rs `DnsRecord::get_data_length`: big-endian u16 at
`next_index + 8`. -/
def DnsRecord.get_data_length (raw : List Nat) (rec : DnsRecord) : RRes Nat :=
  read_be raw (rec.nextIndex + 8) (rec.nextIndex + 10)

/-- record.rs `DnsRecord::get_data`: data starts at `next_index + 10`; the
argument expressions are evaluated left to right as in the source. -/
def DnsRecord.get_data (fuel : Nat) (raw : List Nat) (rec : DnsRecord) :
    RRes Data :=
  (rec.get_data_length raw).bind fun dl =>
  (rec.get_type raw).bind fun t =>
  (rec.get_class raw).bind fun c =>
  Data.get fuel raw (rec.nextIndex + 10) dl t c

/-- record.rs `DnsQuestion::parse`: a plain wrapper around
`DnsRecord::parse`. -/
def DnsQuestion.parse (fuel : Nat) (raw : List Nat) (offset : Nat) :
    RRes DnsRecord :=
  DnsRecord.parse fuel raw offset

/-- record.rs `DnsQuestion::get_length`: label bytes + type + class. -/
def DnsQuestion.get_length (rec : DnsRecord) : RRes Nat :=
  (rec.get_labels_length).bind fun ll => .ok (ll + 4)

/-- record.rs `DnsAnswer::parse`: `raw.len() - offset` is an unchecked usize
subtraction, so `offset > raw.len()` is a panic under the overflow-checked
semantics (release builds wrap instead, skipping the minimum-length check). -/
def DnsAnswer.parse (fuel : Nat) (raw : List Nat) (offset : Nat) :
    RRes DnsRecord :=
  if offset > raw.length then .panic
  else if raw.length - offset < 11 then .err .recordLength
  else DnsRecord.parse fuel raw offset

/-- record.rs `DnsAnswer::get_length`: label bytes + fixed fields + rdata. -/
def DnsAnswer.get_length (raw : List Nat) (rec : DnsRecord) : RRes Nat :=
  (rec.get_labels_length).bind fun ll =>
  (rec.get_data_length raw).bind fun dl => .ok (ll + 10 + dl)

/-- packet.rs `OpCode`. -/
inductive OpCode where
  | query : OpCode
  | iquery : OpCode
  | status : OpCode
  | reserved : Nat → OpCode
deriving DecidableEq

/-- packet.rs `impl From<u8> for OpCode`. -/
def OpCode.fromNat (n : Nat) : OpCode :=
  match n with
  | 0 => .query
  | 1 => .iquery
  | 2 => .status
  | other => .reserved other

/-- packet.rs `RCode`. -/
inductive RCode where
  | noError : RCode
  | formatError : RCode
  | serverFailure : RCode
  | nameError : RCode
  | notImplemented : RCode
  | refused : RCode
  | reserved : Nat → RCode
deriving DecidableEq

/-- packet.rs `impl From<u8> for RCode`. -/
def RCode.fromNat (n : Nat) : RCode :=
  match n with
  | 0 => .noError
  | 1 => .formatError
  | 2 => .serverFailure
  | 3 => .nameError
  | 4 => .notImplemented
  | 5 => .refused
  | other => .reserved other

/-- packet.rs `DnsPacket` minus the buffer borrow: the four decoded record
sections. -/
structure DnsPacket where
  questions : List DnsRecord
  answers : List DnsRecord
  authorities : List DnsRecord
  additionals : List DnsRecord
deriving DecidableEq

/-- big-endian u16 at `i`, as a total function: `DnsPacket::parse` reads the
four header counts only after establishing `raw.len() >= 12`, so both bytes
are in bounds at every use. -/
def readBe16D (raw : List Nat) (i : Nat) : Nat :=
  256 * raw.getD i 0 + raw.getD (i + 1) 0

/-- the questions loop of packet.rs `parse_records`: parse one question per
count at the running offset, advance by its length. -/
def parseQuestions (fuel : Nat) (raw : List Nat) : Nat → Nat →
    RRes (List DnsRecord × Nat)
  | 0, off => .ok ([], off)
  | n + 1, off =>
    (DnsQuestion.parse fuel raw off).bind fun q =>
    (DnsQuestion.get_length q).bind fun l =>
    (parseQuestions fuel raw n (off + l)).bind fun p =>
    .ok (q :: p.1, p.2)

/-- the answers loop of packet.rs `parse_records`, reused verbatim for
authorities and additionals (type aliases in the source). -/
def parseAnswers (fuel : Nat) (raw : List Nat) : Nat → Nat →
    RRes (List DnsRecord × Nat)
  | 0, off => .ok ([], off)
  | n + 1, off =>
    (DnsAnswer.parse fuel raw off).bind fun a =>
    (DnsAnswer.get_length raw a).bind fun l =>
    (parseAnswers fuel raw n (off + l)).bind fun p =>
    .ok (a :: p.1, p.2)

/-- packet.rs `DnsPacket::parse` followed by `parse_records`: header length
check, then the four section loops driven by the header counts starting at
offset 12. -/
def DnsPacket.parse (fuel : Nat) (raw : List Nat) : RRes DnsPacket :=
  if raw.length < 12 then .err .packetLength
  else
    (parseQuestions fuel raw (readBe16D raw 4) 12).bind fun q =>
    (parseAnswers fuel raw (readBe16D raw 6) q.2).bind fun an =>
    (parseAnswers fuel raw (readBe16D raw 8) an.2).bind fun au =>
    (parseAnswers fuel raw (readBe16D raw 10) au.2).bind fun ad =>
    .ok ⟨q.1, an.1, au.1, ad.1⟩

/-- packet.rs `DnsPacket::get_id`. -/
def DnsPacket.get_id (raw : List Nat) : RRes Nat := read_be raw 0 2

/-- packet.rs `DnsPacket::get_qr`: `(raw[2] & 0b10000000) >> 7`. -/
def DnsPacket.get_qr (raw : List Nat) : RRes Nat :=
  (byteAt raw 2).bind fun b => .ok ((b &&& 128) >>> 7)

/-- packet.rs `DnsPacket::get_opcode`: `(raw[2] & 0b01111000) >> 3`. -/
def DnsPacket.get_opcode (raw : List Nat) : RRes OpCode :=
  (byteAt raw 2).bind fun b => .ok (OpCode.fromNat ((b &&& 120) >>> 3))

/-- packet.rs `DnsPacket::get_aa`: `(raw[2] & 0b00000100) >> 2`. -/
def DnsPacket.get_aa (raw : List Nat) : RRes Nat :=
  (byteAt raw 2).bind fun b => .ok ((b &&& 4) >>> 2)

/-- packet.rs `DnsPacket::get_tc`: `(raw[2] & 0b00000010) >> 1`. -/
def DnsPacket.get_tc (raw : List Nat) : RRes Nat :=
  (byteAt raw 2).bind fun b => .ok ((b &&& 2) >>> 1)

/-- packet.rs `DnsPacket::get_rd`: `raw[2] & 0b00000001`. -/
def DnsPacket.get_rd (raw : List Nat) : RRes Nat :=
  (byteAt raw 2).bind fun b => .ok (b &&& 1)

/-- packet.rs `DnsPacket::get_ra`: `(raw[3] & 0b10000000) >> 7`. -/
def DnsPacket.get_ra (raw : List Nat) : RRes Nat :=
  (byteAt raw 3).bind fun b => .ok ((b &&& 128) >>> 7)

/-- packet.rs `DnsPacket::get_z`: `(raw[3] & 0b01110000) >> 4`. -/
def DnsPacket.get_z (raw : List Nat) : RRes Nat :=
  (byteAt raw 3).bind fun b => .ok ((b &&& 112) >>> 4)

/-- packet.rs `DnsPacket::get_rcode`: `raw[3] & 0b00001111`. -/
def DnsPacket.get_rcode (raw : List Nat) : RRes RCode :=
  (byteAt raw 3).bind fun b => .ok (RCode.fromNat (b &&& 15))

/-- packet.rs `DnsPacket::get_questions`: big-endian u16 at `[4,6)`. -/
def DnsPacket.get_questions (raw : List Nat) : RRes Nat := read_be raw 4 6

/-- packet.rs `DnsPacket::get_answers`: big-endian u16 at `[6,8)`. -/
def DnsPacket.get_answers (raw : List Nat) : RRes Nat := read_be raw 6 8

/-- packet.rs `DnsPacket::get_authorities`: big-endian u16 at `[8,10)`. -/
def DnsPacket.get_authorities (raw : List Nat) : RRes Nat := read_be raw 8 10

/-- packet.rs `DnsPacket::get_additionals`: big-endian u16 at `[10,12)`. -/
def DnsPacket.get_additionals (raw : List Nat) : RRes Nat := read_be raw 10 12

/-- every element of the buffer is a byte value. -/
def isBytes (raw : List Nat) : Prop := ∀ b ∈ raw, b < 256

instance (raw : List Nat) : Decidable (isBytes raw) := by
  unfold isBytes; infer_instance

/-- spec §8 Scenario A wire bytes: header ID=0x1234, QR=1, QDCOUNT=1,
ANCOUNT=1; question `7"example"3"com"0` TYPE=1 CLASS=1; answer naming the
question via pointer 0xC00C, TYPE=1, CLASS=1, TTL=300, RDLENGTH=4,
RDATA=192.0.2.1. -/
def scenarioA : List Nat :=
  [18, 52, 128, 0, 0, 1, 0, 1, 0, 0, 0, 0,
   7, 101, 120, 97, 109, 112, 108, 101, 3, 99, 111, 109, 0, 0, 1, 0, 1,
   192, 12, 0, 1, 0, 1, 0, 0, 1, 44, 0, 4, 192, 0, 2, 1]

/-- UTF-8 bytes of the text `example.com.`. -/
def exampleComDots : List Nat :=
  [101, 120, 97, 109, 112, 108, 101, 46, 99, 111, 109, 46]

/-- Modelled from the spec for comparison with `parse_labels_go` (claim C8):
identical loop except that a non-zero length byte is treated as a
compression pointer only when BOTH top bits are set (`L & 0xC0 == 0xC0`),
as the spec sentence "If top two bits of `L` set (compression pointer)"
reads. -/
def parse_labels_claimed_go (raw : List Nat) : Nat → Nat → Bool → List Nat →
    Nat → RRes (List Nat × Nat)
  | 0, _, _, _, _ => .fuelOut
  | fuel + 1, i, isRef, idxs, next =>
    if i ≥ raw.length then .err .labelLength
    else
      let length := raw.getD i 0
      if length = 0 then
        if isRef then .ok (idxs, next) else .ok (idxs, i + 1)
      else if length &&& 192 = 192 then
        let next2 := if isRef then next else i + 2
        if i + 1 < raw.length then
          let newI := ((length &&& 63) <<< 8) ||| raw.getD (i + 1) 0
          if newI ≥ i then .err .labelReference
          else parse_labels_claimed_go raw fuel newI true idxs next2
        else .panic
      else
        parse_labels_claimed_go raw fuel (i + length + 1) isRef (idxs ++ [i]) next

/-- Modelled from the spec: wrapper of `parse_labels_claimed_go` (claim C8). -/
def parse_labels_claimed (fuel : Nat) (raw : List Nat) (offset : Nat) :
    RRes (List Nat × Nat) :=
  parse_labels_claimed_go raw fuel offset false [] 0

/-! ## Claim C1 -/

/-- on the buffer `[1,65,192,0]` the label chase cycles between offsets 0
and 2 forever: the pointer at offset 2 targets offset 0 (strictly smaller,
so the reference check passes), and the length-1 label at offset 0 walks the
cursor straight back to offset 2. -/
theorem parse_labels_cycle_loop :
    ∀ fuel : Nat, ∀ idxs : List Nat, ∀ next : Nat, ∀ isRef : Bool,
      parse_labels_go [1, 65, 192, 0] fuel 0 isRef idxs next = .fuelOut ∧
      parse_labels_go [1, 65, 192, 0] fuel 2 isRef idxs next = .fuelOut := by
  intro fuel
  induction fuel with
  | zero => intro idxs next isRef; exact ⟨rfl, rfl⟩
  | succ f ih =>
    intro idxs next isRef
    refine ⟨?_, ?_⟩
    · exact (ih (idxs ++ [0]) next isRef).2
    · exact (ih idxs (if isRef then next else 4) true).1

/-- C1: FALSE — the claim that `parse_labels` terminates for every buffer
and start offset fails: on buffer `[1,65,192,0]` at offset 0 it never
terminates, because the reference check only compares a pointer target to
the current cursor, which walking an ordinary label can raise again.  For
every iteration bound the loop is still running. -/
theorem c1_parse_labels_nonterminating :
    ∀ fuel : Nat, parse_labels fuel [1, 65, 192, 0] 0 = .fuelOut :=
  fun fuel => (parse_labels_cycle_loop fuel [] 0 false).1

/-! ## Claim C2 -/

/-- C2: FALSE on the code — a bounds failure is not always downgraded to
`Invalid` bytes truncated to the buffer.  With buffer `[9,9]`, RDATA offset
1, RDLENGTH 2, TYPE A, CLASS Internet, the structural decode fails the
bounds precondition (`1 + 2 > 2`), and `Data::get` then slices
`raw[1 .. 1 + min(2, 2)] = raw[1..3]`, which is itself out of bounds: the
decode panics instead of producing `Invalid`. -/
theorem c2_data_get_panics :
    Data.parse 10 [9, 9] 1 2 .a .internet = .err .dataLength ∧
    Data.get 10 [9, 9] 1 2 .a .internet = .panic :=
  ⟨rfl, rfl⟩

/-! ## Claim C3 -/

/-- C3: FALSE on the code in the trailing-pointer case — a pointer first
byte that is the last byte of the buffer makes `parse_labels` read
`raw[i + 1]` out of bounds (a panic), not return `LabelReference`; the
self-pointer case `[192, 0]` does return `LabelReference`. -/
theorem c3_parse_labels_out_of_bounds :
    parse_labels 5 [192] 0 = .panic ∧
    parse_labels 5 [192, 0] 0 = .err .labelReference :=
  ⟨rfl, rfl⟩

/-! ## Claim C7 -/

/-- C7: FALSE on the code at the boundary — `get_character_strings` checks
`i + L > raw.len()` while the cursor is still on the length byte, then
advances past it and slices `L` bytes: on input `[1]` the length prefix 1
exceeds the zero bytes remaining after the prefix, yet the check passes and
the slice `raw[1..2]` is out of bounds (a panic) instead of the
`CharactersLength` error.  The empty input and an exactly-fitting string
behave as stated. -/
theorem c7_character_strings_boundary :
    get_character_strings [] = .ok [] ∧
    get_character_strings [1] = .panic ∧
    get_character_strings [1, 97] = .ok [[97]] :=
  ⟨rfl, rfl, rfl⟩

/-! ## Claim C6 -/

/-- C6: Scenario A decodes as the claim states: one question and one answer,
id 0x1234 (= 4660), both names resolving to `example.com.`, both of type A,
the answer carrying address 192.0.2.1 (big-endian value 3221225985) and
ttl 300. -/
theorem c6_scenario_a :
    DnsPacket.parse 50 scenarioA =
      .ok ⟨[⟨12, [12, 20], 25⟩], [⟨29, [12, 20], 31⟩], [], []⟩ ∧
    DnsPacket.get_id scenarioA = .ok 4660 ∧
    DnsRecord.get_name scenarioA ⟨12, [12, 20], 25⟩ = .ok exampleComDots ∧
    DnsRecord.get_type scenarioA ⟨12, [12, 20], 25⟩ = .ok .a ∧
    DnsRecord.get_class scenarioA ⟨12, [12, 20], 25⟩ = .ok .internet ∧
    DnsRecord.get_name scenarioA ⟨29, [12, 20], 31⟩ = .ok exampleComDots ∧
    DnsRecord.get_type scenarioA ⟨29, [12, 20], 31⟩ = .ok .a ∧
    DnsRecord.get_ttl scenarioA ⟨29, [12, 20], 31⟩ = .ok 300 ∧
    DnsRecord.get_data 50 scenarioA ⟨29, [12, 20], 31⟩ = .ok (.a 3221225985) :=
  ⟨rfl, rfl, rfl, rfl, rfl, rfl, rfl, rfl, rfl⟩

/-! ## Claim C8 -/

/-- C8 counterexample: the code's pointer test is `L & 0xC0 != 0`, not
"both top bits set".  On buffer `[64, 5]` the first byte 64 has only bit 6
set (`64 & 192 = 64 ≠ 192`), yet the code takes the pointer branch and
fails with `LabelReference` (target `(64 & 63) << 8 | 5 = 5 ≥ 0`), while
the both-bits reading of the claim (`parse_labels_claimed`) treats it as a
64-byte label and fails with `LabelLength` instead. -/
theorem c8_counterexample :
    parse_labels 5 [64, 5] 0 = .err .labelReference ∧
    parse_labels_claimed 5 [64, 5] 0 = .err .labelLength ∧
    (64 &&& 192 ≠ 0) ∧ ¬(64 &&& 192 = 192) :=
  ⟨rfl, rfl, by decide, by decide⟩

/-- C8 (amended): a non-zero length byte `L` is treated as a compression
pointer if and only if AT LEAST ONE of its top two bits is set
(`L & 0xC0 ≠ 0`); for every other non-zero `L` the byte's offset is recorded
as a label location and the cursor advances by `L + 1`. -/
theorem c8_pointer_condition :
    ∀ raw : List Nat, ∀ fuel i : Nat, ∀ isRef : Bool, ∀ idxs : List Nat,
      ∀ next : Nat, i < raw.length → raw.getD i 0 ≠ 0 →
      parse_labels_go raw (fuel + 1) i isRef idxs next =
        if raw.getD i 0 &&& 192 ≠ 0 then
          (if i + 1 < raw.length then
            (if (((raw.getD i 0 &&& 63) <<< 8) ||| raw.getD (i + 1) 0) ≥ i
             then .err .labelReference
             else parse_labels_go raw fuel
               (((raw.getD i 0 &&& 63) <<< 8) ||| raw.getD (i + 1) 0)
               true idxs (if isRef then next else i + 2))
           else .panic)
        else
          parse_labels_go raw fuel (i + raw.getD i 0 + 1) isRef
            (idxs ++ [i]) next := by
  intro raw fuel i isRef idxs next hi hnz
  rw [parse_labels_go]
  rw [if_neg (by omega)]
  simp only [if_neg hnz]

/-- C8 witness: the amended branch condition evaluated at the concrete
buffer `[64, 5]`. -/
theorem c8_pointer_condition_witness :
    parse_labels_go [64, 5] 5 0 false [] 0 = .err .labelReference := by
  have h := c8_pointer_condition [64, 5] 4 0 false [] 0 (by decide) (by decide)
  rw [h]; rfl

/-! ## Claim C9 -/

/-- C9 counterexample: `DnsAnswer::parse` is not total — at an offset
strictly greater than the buffer length the unchecked usize subtraction
`raw.len() - offset` underflows (a panic under the overflow-checked
semantics), rather than returning `RecordLength`. -/
theorem c9_counterexample : DnsAnswer.parse 5 [] 1 = .panic := rfl

/-- C9 (amended): for every offset at most the buffer length,
`DnsAnswer::parse` returns the `RecordLength` error whenever fewer than 11
bytes remain; for an offset strictly greater than the buffer length the
unchecked subtraction `raw.len() - offset` underflows instead (a panic
under overflow checks; release builds wrap, skip the minimum-length check,
and `DnsRecord::parse` then reports `RecordLength`). -/
theorem c9_answer_parse_record_length :
    ∀ fuel : Nat, ∀ raw : List Nat, ∀ offset : Nat,
      (offset ≤ raw.length → raw.length - offset < 11 →
        DnsAnswer.parse fuel raw offset = .err .recordLength) ∧
      (raw.length < offset → DnsAnswer.parse fuel raw offset = .panic) := by
  intro fuel raw offset
  constructor
  · intro hle hrem
    unfold DnsAnswer.parse
    rw [if_neg (by omega), if_pos hrem]
  · intro hlt
    unfold DnsAnswer.parse
    rw [if_pos (by omega)]

/-- C9 witness: the amended statement evaluated on the empty buffer at
offset 0 (0 bytes remaining). -/
theorem c9_answer_parse_record_length_witness :
    DnsAnswer.parse 1 [] 0 = .err .recordLength :=
  (c9_answer_parse_record_length 1 [] 0).1 (by decide) (by decide)

/-! ## Claim C10 -/

/-- C10 counterexample: `DnsRecord::parse` succeeds on the 5-byte buffer
`[1,65,1,66,0]` at offset 0 (the minimum-length check only demands 5 bytes
in total), producing `next_index = 5`, yet `next_index + 4` exceeds the
buffer length and `get_type` reads out of bounds (a panic). -/
theorem c10_counterexample :
    DnsRecord.parse 5 [1, 65, 1, 66, 0] 0 = .ok ⟨0, [0, 2], 5⟩ ∧
    ¬((5 : Nat) + 4 ≤ ([1, 65, 1, 66, 0] : List Nat).length) ∧
    DnsRecord.get_type [1, 65, 1, 66, 0] ⟨0, [0, 2], 5⟩ = .panic :=
  ⟨rfl, by decide, rfl⟩

/-- whenever the `parse_labels` loop returns successfully, the returned
next-field index is at most the buffer length, provided the pending
`next_index` already satisfies that bound while chasing a reference (at a
first pointer the bound holds because the pointer's second byte was read in
bounds, and at a terminating zero byte because the cursor is in bounds). -/
theorem parse_labels_go_next_le (raw : List Nat) :
    ∀ fuel i : Nat, ∀ isRef : Bool, ∀ idxs : List Nat, ∀ next : Nat,
      ∀ idxs2 : List Nat, ∀ next2 : Nat,
      (isRef = true → next ≤ raw.length) →
      parse_labels_go raw fuel i isRef idxs next = .ok (idxs2, next2) →
      next2 ≤ raw.length := by
  intro fuel
  induction fuel with
  | zero =>
    intro i isRef idxs next idxs2 next2 _ h
    exact RRes.noConfusion h
  | succ f ih =>
    intro i isRef idxs next idxs2 next2 hinv h
    simp only [parse_labels_go] at h
    by_cases hi : i ≥ raw.length
    · rw [if_pos hi] at h; exact RRes.noConfusion h
    · rw [if_neg hi] at h
      by_cases hz : raw.getD i 0 = 0
      · rw [if_pos hz] at h
        cases isRef with
        | true =>
          rw [if_pos rfl] at h
          injection h with h2
          injection h2 with h3 h4
          have hn := hinv rfl
          omega
        | false =>
          rw [if_neg (by simp)] at h
          injection h with h2
          injection h2 with h3 h4
          omega
      · rw [if_neg hz] at h
        by_cases hp : raw.getD i 0 &&& 192 ≠ 0
        · rw [if_pos hp] at h
          by_cases hb : i + 1 < raw.length
          · rw [if_pos hb] at h
            by_cases hr : (((raw.getD i 0 &&& 63) <<< 8) ||| raw.getD (i + 1) 0) ≥ i
            · rw [if_pos hr] at h; exact RRes.noConfusion h
            · rw [if_neg hr] at h
              refine ih _ _ _ _ _ _ ?_ h
              intro _
              cases isRef with
              | true => rw [if_pos rfl]; exact hinv rfl
              | false => rw [if_neg (by simp)]; omega
          · rw [if_neg hb] at h; exact RRes.noConfusion h
        · rw [if_neg hp] at h
          exact ih _ _ _ _ _ _ hinv h

/-- C10 (amended): whenever `DnsRecord::parse` succeeds, `next_index` is at
most the buffer length — but not necessarily `next_index + 4`, so the fixed
fields after the name need not lie within the buffer and `get_type` /
`get_class` (and for full records `get_ttl` / `get_data_length`) may still
index out of bounds. -/
theorem c10_next_index_le :
    ∀ fuel : Nat, ∀ raw : List Nat, ∀ offset : Nat, ∀ rec : DnsRecord,
      DnsRecord.parse fuel raw offset = .ok rec →
      rec.nextIndex ≤ raw.length := by
  intro fuel raw offset rec h
  unfold DnsRecord.parse at h
  by_cases hc : offset > raw.length ∨ raw.length - offset < 5
  · rw [if_pos hc] at h; exact RRes.noConfusion h
  · rw [if_neg hc] at h
    cases hp : parse_labels fuel raw offset with
    | ok r =>
      rw [hp] at h
      simp only [RRes.bind] at h
      injection h with h2
      rw [← h2]
      exact parse_labels_go_next_le raw fuel offset false [] 0 r.1 r.2
        (by simp) hp
    | err e => rw [hp] at h; exact RRes.noConfusion h
    | panic => rw [hp] at h; exact RRes.noConfusion h
    | fuelOut => rw [hp] at h; exact RRes.noConfusion h

/-- C10 witness: the amended bound evaluated on the all-zero 5-byte record,
whose parse succeeds with `next_index = 1 ≤ 5`. -/
theorem c10_next_index_le_witness :
    (⟨0, [], 1⟩ : DnsRecord).nextIndex ≤ ([0, 0, 0, 0, 0] : List Nat).length :=
  c10_next_index_le 5 [0, 0, 0, 0, 0] 0 ⟨0, [], 1⟩ rfl

/-! ## Claim C4 -/

/-- the questions loop decodes exactly as many entries as its count says. -/
theorem parseQuestions_length (fuel : Nat) (raw : List Nat) :
    ∀ n off : Nat, ∀ qs : List DnsRecord, ∀ off2 : Nat,
      parseQuestions fuel raw n off = .ok (qs, off2) → qs.length = n := by
  intro n
  induction n with
  | zero =>
    intro off qs off2 h
    simp only [parseQuestions] at h
    injection h with h2
    injection h2 with h3 h4
    rw [← h3]; rfl
  | succ n ih =>
    intro off qs off2 h
    simp only [parseQuestions] at h
    cases hq : DnsQuestion.parse fuel raw off with
    | ok q =>
      rw [hq] at h; simp only [RRes.bind] at h
      cases hl : DnsQuestion.get_length q with
      | ok l =>
        rw [hl] at h; simp only [RRes.bind] at h
        cases hr : parseQuestions fuel raw n (off + l) with
        | ok p =>
          rw [hr] at h; simp only [RRes.bind] at h
          injection h with h2
          injection h2 with h3 h4
          rw [← h3]
          simp [ih (off + l) p.1 p.2 hr]
        | err e => rw [hr] at h; exact RRes.noConfusion h
        | panic => rw [hr] at h; exact RRes.noConfusion h
        | fuelOut => rw [hr] at h; exact RRes.noConfusion h
      | err e => rw [hl] at h; exact RRes.noConfusion h
      | panic => rw [hl] at h; exact RRes.noConfusion h
      | fuelOut => rw [hl] at h; exact RRes.noConfusion h
    | err e => rw [hq] at h; exact RRes.noConfusion h
    | panic => rw [hq] at h; exact RRes.noConfusion h
    | fuelOut => rw [hq] at h; exact RRes.noConfusion h

/-- the answers loop (also used for authorities and additionals) decodes
exactly as many entries as its count says. -/
theorem parseAnswers_length (fuel : Nat) (raw : List Nat) :
    ∀ n off : Nat, ∀ rs : List DnsRecord, ∀ off2 : Nat,
      parseAnswers fuel raw n off = .ok (rs, off2) → rs.length = n := by
  intro n
  induction n with
  | zero =>
    intro off rs off2 h
    simp only [parseAnswers] at h
    injection h with h2
    injection h2 with h3 h4
    rw [← h3]; rfl
  | succ n ih =>
    intro off rs off2 h
    simp only [parseAnswers] at h
    cases hq : DnsAnswer.parse fuel raw off with
    | ok a =>
      rw [hq] at h; simp only [RRes.bind] at h
      cases hl : DnsAnswer.get_length raw a with
      | ok l =>
        rw [hl] at h; simp only [RRes.bind] at h
        cases hr : parseAnswers fuel raw n (off + l) with
        | ok p =>
          rw [hr] at h; simp only [RRes.bind] at h
          injection h with h2
          injection h2 with h3 h4
          rw [← h3]
          simp [ih (off + l) p.1 p.2 hr]
        | err e => rw [hr] at h; exact RRes.noConfusion h
        | panic => rw [hr] at h; exact RRes.noConfusion h
        | fuelOut => rw [hr] at h; exact RRes.noConfusion h
      | err e => rw [hl] at h; exact RRes.noConfusion h
      | panic => rw [hl] at h; exact RRes.noConfusion h
      | fuelOut => rw [hl] at h; exact RRes.noConfusion h
    | err e => rw [hq] at h; exact RRes.noConfusion h
    | panic => rw [hq] at h; exact RRes.noConfusion h
    | fuelOut => rw [hq] at h; exact RRes.noConfusion h

/-- C4: whenever `DnsPacket::parse` succeeds, the message holds exactly
QDCOUNT questions, ANCOUNT answers, NSCOUNT authorities and ARCOUNT
additionals as stated by the header's big-endian count fields (an entry
failure yields an `Err` value carrying no message at all), and the 12-zero-
byte buffer decodes to a message with four empty sections. -/
theorem c4_section_counts :
    (∀ fuel : Nat, ∀ raw : List Nat, ∀ pkt : DnsPacket,
      DnsPacket.parse fuel raw = .ok pkt →
        pkt.questions.length = readBe16D raw 4 ∧
        pkt.answers.length = readBe16D raw 6 ∧
        pkt.authorities.length = readBe16D raw 8 ∧
        pkt.additionals.length = readBe16D raw 10) ∧
    DnsPacket.parse 1 (List.replicate 12 0) = .ok ⟨[], [], [], []⟩ := by
  constructor
  · intro fuel raw pkt h
    unfold DnsPacket.parse at h
    by_cases hlen : raw.length < 12
    · rw [if_pos hlen] at h; exact RRes.noConfusion h
    · rw [if_neg hlen] at h
      cases h1 : parseQuestions fuel raw (readBe16D raw 4) 12 with
      | ok q =>
        rw [h1] at h; simp only [RRes.bind] at h
        cases h2 : parseAnswers fuel raw (readBe16D raw 6) q.2 with
        | ok an =>
          rw [h2] at h; simp only [RRes.bind] at h
          cases h3 : parseAnswers fuel raw (readBe16D raw 8) an.2 with
          | ok au =>
            rw [h3] at h; simp only [RRes.bind] at h
            cases h4 : parseAnswers fuel raw (readBe16D raw 10) au.2 with
            | ok ad =>
              rw [h4] at h; simp only [RRes.bind] at h
              injection h with h5
              rw [← h5]
              exact ⟨parseQuestions_length fuel raw _ 12 q.1 q.2 h1,
                     parseAnswers_length fuel raw _ q.2 an.1 an.2 h2,
                     parseAnswers_length fuel raw _ an.2 au.1 au.2 h3,
                     parseAnswers_length fuel raw _ au.2 ad.1 ad.2 h4⟩
            | err e => rw [h4] at h; exact RRes.noConfusion h
            | panic => rw [h4] at h; exact RRes.noConfusion h
            | fuelOut => rw [h4] at h; exact RRes.noConfusion h
          | err e => rw [h3] at h; exact RRes.noConfusion h
          | panic => rw [h3] at h; exact RRes.noConfusion h
          | fuelOut => rw [h3] at h; exact RRes.noConfusion h
        | err e => rw [h2] at h; exact RRes.noConfusion h
        | panic => rw [h2] at h; exact RRes.noConfusion h
        | fuelOut => rw [h2] at h; exact RRes.noConfusion h
      | err e => rw [h1] at h; exact RRes.noConfusion h
      | panic => rw [h1] at h; exact RRes.noConfusion h
      | fuelOut => rw [h1] at h; exact RRes.noConfusion h
  · rfl

/-- C4 witness: the count equation instantiated on the all-zero header. -/
theorem c4_section_counts_witness :
    ([] : List DnsRecord).length = readBe16D (List.replicate 12 0) 4 :=
  (c4_section_counts.1 1 (List.replicate 12 0) ⟨[], [], [], []⟩ rfl).1

/-! ## Claim C5 -/

/-- the masked-shift expressions of the header accessors coincide with the
bit/field formulas of the spec on every byte value. -/
theorem byte_field_formulas :
    ∀ b < 256,
      (b &&& 128) >>> 7 = (if Nat.testBit b 7 then 1 else 0) ∧
      (b &&& 120) >>> 3 = b / 8 % 16 ∧
      (b &&& 4) >>> 2 = (if Nat.testBit b 2 then 1 else 0) ∧
      (b &&& 2) >>> 1 = (if Nat.testBit b 1 then 1 else 0) ∧
      (b &&& 1) = (if Nat.testBit b 0 then 1 else 0) ∧
      (b &&& 112) >>> 4 = b / 16 % 8 ∧
      (b &&& 15) = b % 16 := by decide

/-- value of a two-element big-endian byte list. -/
theorem beVal_pair (x y : Nat) : beVal [x, y] = 256 * x + y := by
  simp [beVal]

/-- a two-byte big-endian read within bounds yields `256*hi + lo`. -/
theorem read_be_two (raw : List Nat) (a : Nat) (h : a + 2 ≤ raw.length) :
    read_be raw a (a + 2) = .ok (256 * raw.getD a 0 + raw.getD (a + 1) 0) := by
  have h1 : a < raw.length := by omega
  have h2 : a + 1 < raw.length := by omega
  unfold read_be rustSlice
  rw [if_pos ⟨by omega, h⟩]
  have hd : raw.drop a = raw[a] :: raw[a + 1] :: raw.drop (a + 2) := by
    rw [List.drop_eq_getElem_cons h1, List.drop_eq_getElem_cons h2]
  have hs : a + 2 - a = 2 := by omega
  rw [hs, hd]
  have ht : List.take 2 (raw[a] :: raw[a + 1] :: raw.drop (a + 2)) =
      [raw[a], raw[a + 1]] := rfl
  have g1 : raw.getD a 0 = raw[a] := by
    simp [List.getD_eq_getElem?_getD, List.getElem?_eq_getElem h1]
  have g2 : raw.getD (a + 1) 0 = raw[a + 1] := by
    simp [List.getD_eq_getElem?_getD, List.getElem?_eq_getElem h2]
  rw [ht]
  show RRes.ok (beVal [raw[a], raw[a + 1]]) =
    RRes.ok (256 * raw.getD a 0 + raw.getD (a + 1) 0)
  rw [beVal_pair, g1, g2]

/-- elements of a byte buffer, read with default 0, are byte values. -/
theorem getD_lt_of_isBytes (raw : List Nat) (h : isBytes raw) (i : Nat) :
    raw.getD i 0 < 256 := by
  by_cases hi : i < raw.length
  · have hg : raw.getD i 0 = raw[i] := by
      simp [List.getD_eq_getElem?_getD, List.getElem?_eq_getElem hi]
    rw [hg]; exact h _ (List.getElem_mem hi)
  · rw [List.getD_eq_default]
    · decide
    · omega

/-- C5: a buffer shorter than 12 bytes makes `DnsPacket::parse` fail with
`PacketLength` (before anything else is read), and on a buffer of at least
12 bytes the header accessors return exactly the bit fields the claim
states: ID and the four counts as big-endian u16 reads, QR/AA/TC/RD/RA as
single bits of bytes 2 and 3, OPCODE as bits 6-3 of byte 2 (3-15 reserved),
Z as bits 6-4 of byte 3 raw, RCODE as bits 3-0 of byte 3 (6-15 reserved). -/
theorem c5_header_fields :
    (∀ fuel : Nat, ∀ raw : List Nat, raw.length < 12 →
      DnsPacket.parse fuel raw = .err .packetLength) ∧
    (∀ raw : List Nat, isBytes raw → 12 ≤ raw.length →
      DnsPacket.get_id raw = .ok (256 * raw.getD 0 0 + raw.getD 1 0) ∧
      DnsPacket.get_qr raw = .ok (if (raw.getD 2 0).testBit 7 then 1 else 0) ∧
      DnsPacket.get_opcode raw = .ok (OpCode.fromNat (raw.getD 2 0 / 8 % 16)) ∧
      (∀ n : Nat, 3 ≤ n → n ≤ 15 → OpCode.fromNat n = .reserved n) ∧
      DnsPacket.get_aa raw = .ok (if (raw.getD 2 0).testBit 2 then 1 else 0) ∧
      DnsPacket.get_tc raw = .ok (if (raw.getD 2 0).testBit 1 then 1 else 0) ∧
      DnsPacket.get_rd raw = .ok (if (raw.getD 2 0).testBit 0 then 1 else 0) ∧
      DnsPacket.get_ra raw = .ok (if (raw.getD 3 0).testBit 7 then 1 else 0) ∧
      DnsPacket.get_z raw = .ok (raw.getD 3 0 / 16 % 8) ∧
      DnsPacket.get_rcode raw = .ok (RCode.fromNat (raw.getD 3 0 % 16)) ∧
      (∀ n : Nat, 6 ≤ n → n ≤ 15 → RCode.fromNat n = .reserved n) ∧
      DnsPacket.get_questions raw = .ok (256 * raw.getD 4 0 + raw.getD 5 0) ∧
      DnsPacket.get_answers raw = .ok (256 * raw.getD 6 0 + raw.getD 7 0) ∧
      DnsPacket.get_authorities raw = .ok (256 * raw.getD 8 0 + raw.getD 9 0) ∧
      DnsPacket.get_additionals raw =
        .ok (256 * raw.getD 10 0 + raw.getD 11 0)) := by
  constructor
  · intro fuel raw hlen
    unfold DnsPacket.parse
    rw [if_pos hlen]
  · intro raw hB hlen
    have hb2 := byte_field_formulas (raw.getD 2 0) (getD_lt_of_isBytes raw hB 2)
    have hb3 := byte_field_formulas (raw.getD 3 0) (getD_lt_of_isBytes raw hB 3)
    have hat2 : byteAt raw 2 = .ok (raw.getD 2 0) := by
      unfold byteAt; rw [if_pos (by omega)]
    have hat3 : byteAt raw 3 = .ok (raw.getD 3 0) := by
      unfold byteAt; rw [if_pos (by omega)]
    refine ⟨?_, ?_, ?_, ?_, ?_, ?_, ?_, ?_, ?_, ?_, ?_, ?_, ?_, ?_, ?_⟩
    · exact read_be_two raw 0 (by omega)
    · unfold DnsPacket.get_qr
      rw [hat2]; simp only [RRes.bind]; rw [hb2.1]
    · unfold DnsPacket.get_opcode
      rw [hat2]; simp only [RRes.bind]; rw [hb2.2.1]
    · intro n h3 h15; interval_cases n <;> rfl
    · unfold DnsPacket.get_aa
      rw [hat2]; simp only [RRes.bind]; rw [hb2.2.2.1]
    · unfold DnsPacket.get_tc
      rw [hat2]; simp only [RRes.bind]; rw [hb2.2.2.2.1]
    · unfold DnsPacket.get_rd
      rw [hat2]; simp only [RRes.bind]; rw [hb2.2.2.2.2.1]
    · unfold DnsPacket.get_ra
      rw [hat3]; simp only [RRes.bind]; rw [hb3.1]
    · unfold DnsPacket.get_z
      rw [hat3]; simp only [RRes.bind]; rw [hb3.2.2.2.2.2.1]
    · unfold DnsPacket.get_rcode
      rw [hat3]; simp only [RRes.bind]; rw [hb3.2.2.2.2.2.2]
    · intro n h6 h15; interval_cases n <;> rfl
    · exact read_be_two raw 4 (by omega)
    · exact read_be_two raw 6 (by omega)
    · exact read_be_two raw 8 (by omega)
    · exact read_be_two raw 10 (by omega)

/-- C5 witness: the accessor equations evaluated on a concrete 12-byte
header `[0x12,0x34, 0xDB, 0xA5, 0,1, 0,2, 0,3, 0,4]` — QR 1, OPCODE
reserved 11, AA 0, TC 1, RD 1, RA 1, Z 2, RCODE refused, counts 1-4 — and
`PacketLength` on the empty buffer. -/
theorem c5_header_fields_witness :
    DnsPacket.parse 3 [] = .err .packetLength ∧
    DnsPacket.get_id [18, 52, 219, 165, 0, 1, 0, 2, 0, 3, 0, 4] = .ok 4660 ∧
    DnsPacket.get_qr [18, 52, 219, 165, 0, 1, 0, 2, 0, 3, 0, 4] = .ok 1 ∧
    DnsPacket.get_opcode [18, 52, 219, 165, 0, 1, 0, 2, 0, 3, 0, 4] =
      .ok (.reserved 11) ∧
    DnsPacket.get_rcode [18, 52, 219, 165, 0, 1, 0, 2, 0, 3, 0, 4] =
      .ok .refused ∧
    DnsPacket.get_questions [18, 52, 219, 165, 0, 1, 0, 2, 0, 3, 0, 4] =
      .ok 1 := by
  have hshort := c5_header_fields.1 3 [] (by decide)
  have hacc := c5_header_fields.2 [18, 52, 219, 165, 0, 1, 0, 2, 0, 3, 0, 4]
    (by decide) (by decide)
  refine ⟨hshort, ?_, ?_, ?_, ?_, ?_⟩
  · rw [hacc.1]; rfl
  · rw [hacc.2.1]; rfl
  · rw [hacc.2.2.1]; rfl
  · rw [hacc.2.2.2.2.2.2.2.2.2.1]; rfl
  · rw [hacc.2.2.2.2.2.2.2.2.2.2.2.1]; rfl

end PacketRs
